import Mathlib

/-!
Shallow embedding of the log-ingestion engine of the `logarithmic`
repository: the single-file tailer (`src/logarithmic/file_watcher.py`),
the wildcard tailer (`src/logarithmic/wildcard_watcher.py`) and the
ingestion hub (`src/logarithmic/log_manager.py`).

Python strings are modelled as lists of Unicode characters (`Str`),
matching Python `str` as a sequence of code points.  The stateful
watcher methods are modelled as pure functions from their relevant
state to a new state together with the list of externally visible
actions (hub publications, Qt signal emissions, handle operations)
they perform, in program order.
-/

namespace Logarithmic

/-- A Python `str`: a sequence of Unicode code points. -/
abbrev Str := List Char

/-- Python `"".join(pieces)`. -/
def joinStr (l : List Str) : Str := l.foldr (· ++ ·) []

/-- The last `n` elements of a list: the semantics of Python
`l[-n:]` for `n > 0`, and of `collections.deque(maxlen=n)` after an
`extend` (oldest elements are dropped from the left). -/
def takeLast {α : Type} (n : Nat) (l : List α) : List α := l.drop (l.length - n)

/-- The characters Python `str.splitlines` treats as line boundaries
(`\n`, `\r`, `\v`, `\f`, FS, GS, RS, NEL, LINE SEPARATOR, PARAGRAPH
SEPARATOR); `"\r\n"` counts as a single boundary. -/
def isLineBreak (c : Char) : Bool :=
  c = '\n' || c = '\r' || c = '\x0b' || c = '\x0c' ||
  c = '\x1c' || c = '\x1d' || c = '\x1e' || c = '\x85' ||
  c = '\u2028' || c = '\u2029'

/-- Worker for `str.splitlines(keepends=True)`; `acc` is the current
partial line, reversed. -/
def splitLinesAux (acc : Str) : Str → List Str
  | [] => if acc.isEmpty then [] else [acc.reverse]
  | '\r' :: '\n' :: rest => (acc.reverse ++ ['\r', '\n']) :: splitLinesAux [] rest
  | c :: rest =>
    if isLineBreak c then (acc.reverse ++ [c]) :: splitLinesAux [] rest
    else splitLinesAux (c :: acc) rest

/-- Python `content.splitlines(keepends=True)`, as used by
`LogBuffer.append`. -/
def splitLinesKeepEnds (s : Str) : List Str := splitLinesAux [] s

/-- Worker for text-mode `readlines`; `acc` is the current partial
line, reversed. -/
def readLinesAux (acc : Str) : Str → List Str
  | [] => if acc.isEmpty then [] else [acc.reverse]
  | c :: rest =>
    if c = '\n' then (acc.reverse ++ [c]) :: readLinesAux [] rest
    else readLinesAux (c :: acc) rest

/-- Python `f.readlines()` on a text-mode handle: universal-newline
translation has already replaced `\r\n` and `\r` by `\n`, so lines are
split after each `\n` only.  The argument is the (translated) text from
the handle's current position. -/
def readLinesOf (s : Str) : List Str := readLinesAux [] s

theorem joinStr_nil : joinStr [] = [] := rfl

theorem joinStr_cons (x : Str) (l : List Str) :
    joinStr (x :: l) = x ++ joinStr l := rfl

theorem joinStr_append (l₁ l₂ : List Str) :
    joinStr (l₁ ++ l₂) = joinStr l₁ ++ joinStr l₂ := by
  induction l₁ with
  | nil => simp [joinStr]
  | cons x xs ih => simp [joinStr_cons, ih, List.append_assoc]

set_option maxHeartbeats 1600000 in
theorem joinStr_splitLinesAux (acc s : Str) :
    joinStr (splitLinesAux acc s) = acc.reverse ++ s := by
  induction acc, s using splitLinesAux.induct with
  | case1 acc h =>
    have hacc : acc = [] := List.isEmpty_iff.mp h
    subst hacc
    simp [splitLinesAux, joinStr]
  | case2 acc h =>
    simp [splitLinesAux, h, joinStr]
  | case3 acc rest ih =>
    simp [splitLinesAux, joinStr_cons, ih]
  | case4 acc c rest hne hbr ih =>
    rw [splitLinesAux]
    · rw [if_pos hbr]
      simp [joinStr_cons, ih]
    · exact hne
  | case5 acc c rest hne hbr ih =>
    rw [splitLinesAux]
    · rw [if_neg hbr]
      simp [ih]
    · exact hne

/-- Rejoining `splitlines(keepends=True)` recovers the original string:
the split is lossless. -/
theorem joinStr_splitLinesKeepEnds (s : Str) :
    joinStr (splitLinesKeepEnds s) = s := by
  simpa using joinStr_splitLinesAux [] s

theorem joinStr_readLinesAux (s : Str) :
    ∀ acc : Str, joinStr (readLinesAux acc s) = acc.reverse ++ s := by
  induction s with
  | nil =>
    intro acc
    by_cases h : acc = []
    · simp [readLinesAux, h, joinStr]
    · simp [readLinesAux, List.isEmpty_iff, h, joinStr]
  | cons c rest ih =>
    intro acc
    by_cases h : c = '\n'
    · simp [readLinesAux, h, joinStr_cons, ih]
    · simp [readLinesAux, h, ih]

/-- Rejoining `readlines()` recovers the handle's text. -/
theorem joinStr_readLinesOf (s : Str) : joinStr (readLinesOf s) = s := by
  simpa using joinStr_readLinesAux s []

/-- `log_manager.LogBuffer`: a `deque(maxlen=max_lines)` of lines plus
the monotonically increasing receipt counter
`_total_lines_received`. -/
structure LogBuffer where
  max_lines : Nat
  lines : List Str
  total_lines_received : Nat
deriving Repr, DecidableEq

/-- `LogBuffer.__init__(max_lines)`; the Python default is 10000. -/
def LogBuffer.init (max_lines : Nat) : LogBuffer :=
  { max_lines := max_lines, lines := [], total_lines_received := 0 }

/-- `LogBuffer.append(content)`: split the chunk into kept-ends lines,
extend the bounded deque (the deque drops oldest lines beyond
`max_lines`), and count every line received. -/
def LogBuffer.append (b : LogBuffer) (content : Str) : LogBuffer :=
  let ls := splitLinesKeepEnds content
  { b with
    lines := takeLast b.max_lines (b.lines ++ ls)
    total_lines_received := b.total_lines_received + ls.length }

/-- `LogBuffer.get_content()`. -/
def LogBuffer.get_content (b : LogBuffer) : Str := joinStr b.lines

/-- `LogBuffer.clear()`: clears the lines, not the counter. -/
def LogBuffer.clear (b : LogBuffer) : LogBuffer := { b with lines := [] }

/-- `len(buffer)`. -/
def LogBuffer.size (b : LogBuffer) : Nat := b.lines.length

theorem takeLast_eq_reverse_take {α : Type} (n : Nat) (l : List α) :
    takeLast n l = (l.reverse.take n).reverse := by
  have h := @List.reverse_take α l.reverse n
  simp only [List.reverse_reverse, List.length_reverse] at h
  simp [takeLast, h]

theorem length_takeLast_le {α : Type} (n : Nat) (l : List α) :
    (takeLast n l).length ≤ n := by
  simp only [takeLast, List.length_drop]
  omega

theorem takeLast_eq_self {α : Type} {n : Nat} {l : List α} (h : l.length ≤ n) :
    takeLast n l = l := by
  simp [takeLast, Nat.sub_eq_zero_of_le h]

theorem take_append_take {α : Type} (n : Nat) (as bs : List α) :
    (as ++ bs.take n).take n = (as ++ bs).take n := by
  by_cases h : n ≤ as.length
  · rw [List.take_append_of_le_length h, List.take_append_of_le_length h]
  · rw [List.take_append_eq_append_take, List.take_append_eq_append_take,
      List.take_take]
    congr 1
    exact congrArg (bs.take ·) (Nat.min_eq_left (by omega))

/-- Re-bounding an already bounded prefix does not change the retained
suffix: the composition law of `deque(maxlen=n)` extends. -/
theorem takeLast_takeLast_append {α : Type} (n : Nat) (xs ys : List α) :
    takeLast n (takeLast n xs ++ ys) = takeLast n (xs ++ ys) := by
  rw [takeLast_eq_reverse_take, takeLast_eq_reverse_take,
    takeLast_eq_reverse_take]
  rw [List.reverse_append, List.reverse_reverse, take_append_take,
    ← List.reverse_append]

/-- One operation on a `LogBuffer`, as issued by the hub. -/
inductive BufOp where
  | append (content : Str)
  | clear
deriving Repr, DecidableEq

def applyBufOp (b : LogBuffer) : BufOp → LogBuffer
  | .append c => b.append c
  | .clear => b.clear

def applyBufOps (b : LogBuffer) (ops : List BufOp) : LogBuffer :=
  ops.foldl applyBufOp b

theorem max_lines_applyBufOp (b : LogBuffer) (op : BufOp) :
    (applyBufOp b op).max_lines = b.max_lines := by
  cases op <;> rfl

theorem max_lines_applyBufOps (b : LogBuffer) (ops : List BufOp) :
    (applyBufOps b ops).max_lines = b.max_lines := by
  induction ops generalizing b with
  | nil => rfl
  | cons op ops ih =>
    simp only [applyBufOps, List.foldl_cons] at ih ⊢
    rw [ih, max_lines_applyBufOp]

theorem size_le_applyBufOp (b : LogBuffer) (op : BufOp)
    (_h : b.lines.length ≤ b.max_lines) :
    (applyBufOp b op).lines.length ≤ b.max_lines := by
  cases op with
  | append c => exact length_takeLast_le _ _
  | clear => simp [applyBufOp, LogBuffer.clear]

theorem size_le_applyBufOps (b : LogBuffer) (ops : List BufOp)
    (h : b.lines.length ≤ b.max_lines) :
    (applyBufOps b ops).lines.length ≤ b.max_lines := by
  induction ops generalizing b with
  | nil => exact h
  | cons op ops ih =>
    simp only [applyBufOps, List.foldl_cons] at ih ⊢
    have h2 := size_le_applyBufOp b op h
    rw [← max_lines_applyBufOp b op] at h2
    have := ih (applyBufOp b op) h2
    rwa [max_lines_applyBufOp] at this

theorem counter_le_applyBufOp (b : LogBuffer) (op : BufOp) :
    b.total_lines_received ≤ (applyBufOp b op).total_lines_received := by
  cases op with
  | append c => simp [applyBufOp, LogBuffer.append]
  | clear => simp [applyBufOp, LogBuffer.clear]

theorem counter_le_applyBufOps (b : LogBuffer) (ops : List BufOp) :
    b.total_lines_received ≤ (applyBufOps b ops).total_lines_received := by
  induction ops generalizing b with
  | nil => exact Nat.le_refl _
  | cons op ops ih =>
    simp only [applyBufOps, List.foldl_cons] at ih ⊢
    exact Nat.le_trans (counter_le_applyBufOp b op) (ih (applyBufOp b op))

theorem append_lines_no_eviction (b : LogBuffer) (c : Str)
    (h : b.lines.length + (splitLinesKeepEnds c).length ≤ b.max_lines) :
    (b.append c).lines = b.lines ++ splitLinesKeepEnds c := by
  unfold LogBuffer.append
  exact takeLast_eq_self (by simpa using h)

/-- Appending chunks whose lines all fit below the cap extends the
line deque without eviction. -/
theorem foldl_append_lines (cs : List Str) (b : LogBuffer)
    (h : b.lines.length + (cs.map fun c => (splitLinesKeepEnds c).length).sum
        ≤ b.max_lines) :
    (cs.foldl LogBuffer.append b).lines
      = b.lines ++ (cs.map splitLinesKeepEnds).flatten := by
  induction cs generalizing b with
  | nil => simp
  | cons c cs ih =>
    simp only [List.map_cons, List.sum_cons, List.foldl_cons, List.flatten_cons] at h ⊢
    have hc : (b.append c).lines = b.lines ++ splitLinesKeepEnds c :=
      append_lines_no_eviction b c (by omega)
    have hmax : (b.append c).max_lines = b.max_lines := rfl
    rw [ih (b.append c) (by rw [hc, hmax]; simpa [List.length_append] using (by omega :
      b.lines.length + (splitLinesKeepEnds c).length
        + (cs.map fun x => (splitLinesKeepEnds x).length).sum ≤ b.max_lines)),
      hc, List.append_assoc]

theorem joinStr_join_map_split (cs : List Str) :
    joinStr ((cs.map splitLinesKeepEnds).flatten) = joinStr cs := by
  induction cs with
  | nil => rfl
  | cons c cs ih =>
    simp only [List.map_cons, List.flatten_cons]
    rw [joinStr_append, ih, joinStr_splitLinesKeepEnds, joinStr_cons]

theorem splitLinesKeepEnds_nil : splitLinesKeepEnds [] = [] := rfl

/-- The hub-visible callbacks of the duck-typed `LogSubscriber`
protocol. -/
inductive SubCall where
  | on_log_content (path : Str) (content : Str)
  | on_log_cleared (path : Str)
  | on_stream_interrupted (path : Str) (reason : Str)
  | on_stream_resumed (path : Str)
deriving Repr, DecidableEq

/-- A hub subscriber: `sub_id` is the object's identity, and
`content_raises path content` says whether its `on_log_content`
callback raises an exception on that call. -/
structure Subscriber where
  sub_id : Nat
  content_raises : Str → Str → Bool

/-- One attempted subscriber callback; `raised = true` records that
the callback raised an exception (which the caller catches and
logs). -/
structure Delivery where
  sub_id : Nat
  call : SubCall
  raised : Bool

/-- `subscriber.on_log_content(path, content)`, as a fallible call. -/
def Subscriber.attempt_on_content (s : Subscriber) (path content : Str) :
    Except Unit Unit :=
  if s.content_raises path content then .error () else .ok ()

/-- The notification loop of `LogManager._on_content_available`:
`for subscriber in subscribers: try: subscriber.on_log_content(path,
content) except Exception: logger.error(...)` — the exception is
caught per subscriber and the loop continues. -/
def notifyContent (subs : List Subscriber) (path content : Str) : List Delivery :=
  subs.map fun s =>
    match s.attempt_on_content path content with
    | .ok _ => { sub_id := s.sub_id, call := .on_log_content path content, raised := false }
    | .error _ => { sub_id := s.sub_id, call := .on_log_content path content, raised := true }

/-- Lookup in a Python dict modelled as an association list. -/
def lookupA {α : Type} : List (Str × α) → Str → Option α
  | [], _ => none
  | (k, v) :: rest, key => if k = key then some v else lookupA rest key

/-- `d[key] = v` for a key already present. -/
def updateA {α : Type} : List (Str × α) → Str → α → List (Str × α)
  | [], _, _ => []
  | (k, v) :: rest, key, v2 =>
    if k = key then (k, v2) :: rest else (k, v) :: updateA rest key v2

/-- `del d[key]`. -/
def removeA {α : Type} : List (Str × α) → Str → List (Str × α)
  | [], _ => []
  | (k, v) :: rest, key => if k = key then rest else (k, v) :: removeA rest key

theorem lookupA_updateA {α : Type} (l : List (Str × α)) (k : Str) (v : α)
    (h : (lookupA l k).isSome) : lookupA (updateA l k v) k = some v := by
  induction l with
  | nil => simp [lookupA] at h
  | cons p rest ih =>
    obtain ⟨pk, pv⟩ := p
    by_cases hk : pk = k
    · simp [lookupA, updateA, hk]
    · simp only [lookupA, updateA, if_neg hk] at h ⊢
      exact ih h

/-- `log_manager.LogManager`: per-path buffers and subscriber lists,
modelled as association lists over the opaque path key. -/
structure LogManager where
  buffers : List (Str × LogBuffer)
  subscribers : List (Str × List Subscriber)

/-- `LogManager.register_log(path, max_lines)`: create an empty buffer
and subscriber list unless the key is already registered. -/
def LogManager.register_log (m : LogManager) (path : Str) (max_lines : Nat) :
    LogManager :=
  match lookupA m.buffers path with
  | some _ => m
  | none =>
    { buffers := m.buffers ++ [(path, LogBuffer.init max_lines)]
      subscribers := m.subscribers ++ [(path, [])] }

/-- `LogManager.subscribe(path, subscriber)`: no-op on an unregistered
key or an already-subscribed object; otherwise append the subscriber
and immediately deliver the current buffer content as a catch-up call
when the buffer is non-empty.  The catch-up call is made directly (not
wrapped in try/except). -/
def LogManager.subscribe (m : LogManager) (path : Str) (s : Subscriber) :
    LogManager × List Delivery :=
  match lookupA m.subscribers path with
  | none => (m, [])
  | some subs =>
    if subs.any fun t => t.sub_id = s.sub_id then (m, [])
    else
      let m2 := { m with subscribers := updateA m.subscribers path (subs ++ [s]) }
      match lookupA m.buffers path with
      | some b =>
        if 0 < b.size then
          (m2, [{ sub_id := s.sub_id
                  call := .on_log_content path b.get_content
                  raised := s.content_raises path b.get_content }])
        else (m2, [])
      | none => (m2, [])

/-- `LogManager._on_content_available(path, content)`, the handler the
`publish_content` signal is connected to: append the chunk to the
key's buffer (logging an error when the key is unknown), then notify
every current subscriber, catching each subscriber's exception
individually. -/
def LogManager.on_content_available (m : LogManager) (path content : Str) :
    LogManager × List Delivery :=
  let m2 :=
    match lookupA m.buffers path with
    | some b => { m with buffers := updateA m.buffers path (b.append content) }
    | none => m
  let subs := (lookupA m.subscribers path).getD []
  (m2, notifyContent subs path content)

/-- `LogManager.clear_buffer(path)`: clear the buffer when the key is
registered, and notify subscribers through `_on_cleared`. -/
def LogManager.clear_buffer (m : LogManager) (path : Str) :
    LogManager × List Delivery :=
  match lookupA m.buffers path with
  | some b =>
    ({ m with buffers := updateA m.buffers path b.clear },
     ((lookupA m.subscribers path).getD []).map fun s =>
       { sub_id := s.sub_id, call := .on_log_cleared path, raised := false })
  | none => (m, [])

theorem lookupA_removeA {α : Type} (l : List (Str × α)) (k : Str)
    (h : (l.map Prod.fst).Nodup) : lookupA (removeA l k) k = none := by
  induction l with
  | nil => rfl
  | cons p rest ih =>
    obtain ⟨pk, pv⟩ := p
    simp only [List.map_cons, List.nodup_cons] at h
    by_cases hk : pk = k
    · subst hk
      simp only [removeA, if_pos rfl]
      have : ∀ q ∈ rest, (Prod.fst q) ≠ pk := by
        intro q hq
        exact fun he => h.1 (he ▸ List.mem_map_of_mem Prod.fst hq)
      clear ih h
      induction rest with
      | nil => rfl
      | cons q qs ihq =>
        obtain ⟨qk, qv⟩ := q
        have hne : qk ≠ pk := this (qk, qv) (by simp)
        simp only [lookupA, if_neg hne]
        exact ihq (fun r hr => this r (List.mem_cons_of_mem _ hr))
    · simp only [removeA, if_neg hk, lookupA, if_neg hk]
      exact ih h.2

/-- An externally visible step of a watcher thread, in program order:
hub publications, Qt signal emissions, and file-handle operations. -/
inductive TailerAction where
  | publish_content (chunk : Str)
  | publish_interrupted (reason : Str)
  | publish_resumed
  | clear_buffer
  | emit_new_lines (chunk : Str)
  | emit_file_switched (old_path new_path : Str)
  | seek_start
  | seek_end
  | close_handle
  | buffer_lines (ls : List Str)
deriving Repr, DecidableEq

/-- The visual separator both watchers publish on reload/truncation:
`"\n============= File Reloaded =============\n"`. -/
def separatorStr : Str := "\n============= File Reloaded =============\n".data

/-- `lines[-n:]` applied only under the source's guard
`if len(lines) > self._tail_lines`; note that Python `lines[-0:]` is
the whole list, so `n = 0` keeps everything. -/
def pySliceLast (n : Nat) (l : List Str) : List Str :=
  if n < l.length then (if n = 0 then l else takeLast n l) else l

/-- The initial read of `FileWatcherThread._start_tailing` (and the
identical per-mode read in `_reload_file` and
`WildcardFileWatcher._switch_to_file`): in tail-only mode, the last
`tail_lines` lines when the file has more than that many lines,
otherwise the entire text. -/
def modeRead (tail_only : Bool) (tail_lines : Nat) (file_text : Str) : Str :=
  if tail_only then joinStr (pySliceLast tail_lines (readLinesOf file_text))
  else file_text

/-- `FileWatcherThread._handle_truncation()` as its action trace.
`has_handle`: whether `_file_handle` is set; `paused`: the pause flag;
`read_result`: what `self._file_handle.read()` returns from offset 0
(`none` models a raised `IOError`, which the method catches and
logs). -/
def handleTruncation (has_handle paused : Bool) (read_result : Option Str) :
    List TailerAction :=
  if !has_handle then []
  else
    [.publish_interrupted "File truncated/rotated".data,
     .seek_start,
     .publish_resumed,
     .publish_content separatorStr] ++
    (if !paused then [.emit_new_lines separatorStr] else []) ++
    (match read_result with
     | none => []
     | some content =>
       if content.isEmpty then []
       else
         [.publish_content content] ++
         (if !paused then [.emit_new_lines content]
          else [.buffer_lines [content]]))

/-- `FileWatcherThread._reload_file(reason)` as its action trace.
`has_handle`: whether a live handle is open; `file_text`: the on-disk
text of the (new) file, `none` when the re-read raises (caught: the
method emits `error_occurred` and returns early); `reopen_ok`: whether
re-opening the handle for tailing succeeds. -/
def reloadFile (reason : Str) (has_handle paused tail_only : Bool)
    (tail_lines : Nat) (file_text : Option Str) (reopen_ok : Bool) :
    List TailerAction :=
  [.publish_interrupted reason] ++
  (if has_handle then [.close_handle] else []) ++
  [.clear_buffer] ++
  (match file_text with
   | none => []
   | some text =>
     let content := modeRead tail_only tail_lines text
     (if content.isEmpty then []
      else
        [.publish_content content] ++
        (if !paused then [.emit_new_lines content]
         else [.buffer_lines [content]])) ++
     (if !reopen_ok then []
      else
        [.seek_end, .publish_content separatorStr] ++
        (if !paused then [.emit_new_lines separatorStr] else []) ++
        [.publish_resumed]))

/-- `FileWatcherThread._start_tailing()` for an existing readable
file: publish the mode-dependent initial content, then open the live
handle and seek to end of file. -/
def startTailing (tail_only : Bool) (tail_lines : Nat) (paused : Bool)
    (file_text : Str) : List TailerAction :=
  let c := modeRead tail_only tail_lines file_text
  (if c.isEmpty then []
   else [.publish_content c] ++ (if !paused then [.emit_new_lines c] else [])) ++
  [.seek_end]

/-- The mutable watcher state `_on_file_modified`, `pause` and
`resume` touch: the running and pause flags and the pending line
buffer `self._buffer`. -/
structure WatcherState where
  running : Bool
  paused : Bool
  pending : List Str
deriving Repr, DecidableEq

/-- `FileWatcherThread.pause()`. -/
def pauseW (st : WatcherState) : WatcherState := { st with paused := true }

/-- `FileWatcherThread.resume()`: unset the flag, and when the pending
buffer is non-empty flush it as one joined `new_lines` emission. -/
def resumeW (st : WatcherState) : WatcherState × List TailerAction :=
  let st2 := { st with paused := false, pending := [] }
  if st.pending.isEmpty then (st2, [])
  else (st2, [.emit_new_lines (joinStr st.pending)])

/-- `FileWatcherThread._on_file_modified()` on the path where the size
check sees no truncation (`file_size ≥ current_pos`): read the new
lines from the live handle, publish them to the hub, and either emit
them downstream or retain them in the pending buffer while paused.
`new_lines_read` is what `self._file_handle.readlines()` returns. -/
def onFileModified (st : WatcherState) (has_handle : Bool)
    (new_lines_read : List Str) : WatcherState × List TailerAction :=
  if !has_handle || !st.running then (st, [])
  else if new_lines_read.isEmpty then (st, [])
  else
    let content := joinStr new_lines_read
    if st.paused then
      ({ st with pending := st.pending ++ new_lines_read },
       [.publish_content content, .buffer_lines new_lines_read])
    else (st, [.publish_content content, .emit_new_lines content])

/-- How the hub mutates the buffer registered under the watcher's key
in response to one watcher action (`publish_content` appends,
`clear_buffer` clears; nothing else touches the buffer). -/
def applyActionToBuffer (b : LogBuffer) : TailerAction → LogBuffer
  | .publish_content c => b.append c
  | .clear_buffer => b.clear
  | _ => b

def runTraceOnBuffer (b : LogBuffer) (tr : List TailerAction) : LogBuffer :=
  tr.foldl applyActionToBuffer b

/-- Hub-published lifecycle/content events of a trace (what the
`LogManager` receives, in order). -/
def isHubEvent : TailerAction → Bool
  | .publish_content _ => true
  | .publish_interrupted _ => true
  | .publish_resumed => true
  | .clear_buffer => true
  | _ => false

def hubTrace (tr : List TailerAction) : List TailerAction := tr.filter isHubEvent

/-- Qt-signal emissions of a trace (the `new_lines` and
`file_switched` channels). -/
def TailerAction.is_emit : TailerAction → Bool
  | .emit_new_lines _ => true
  | .emit_file_switched _ _ => true
  | _ => false

/-- Hub content publications of a trace: the `LogManager` fans each
one out synchronously as an `on_log_content` (onContent) call to every
subscriber of the key. -/
def isContentPublish : TailerAction → Bool
  | .publish_content _ => true
  | _ => false

def isInterruptedEvent : TailerAction → Bool
  | .publish_interrupted _ => true
  | _ => false

def isResumedEvent : TailerAction → Bool
  | .publish_resumed => true
  | _ => false

def isSwitchedEvent : TailerAction → Bool
  | .emit_file_switched _ _ => true
  | _ => false

/-- A file visible to the wildcard watcher: its path, its modification
time (`os.path.getmtime`), and its translated text. -/
structure FileInfo where
  path : Str
  mtime : Nat
  text : Str
deriving Repr, DecidableEq

/-- `Path(p).name`: the final component of the path. -/
def baseName (p : Str) : Str := (p.reverse.takeWhile fun c => c != '/').reverse

/-- `WildcardFileWatcher._find_latest_matching_file`, over the files
the glob currently matches: Python sorts them by modification time,
newest first (`sort` is stable, so among equal mtimes the earlier
listing stays first) and takes the head; `none` when nothing
matches. -/
def findLatestMatchingFile : List FileInfo → Option FileInfo
  | [] => none
  | f :: fs =>
    some (fs.foldl (fun best g => if best.mtime < g.mtime then g else best) f)

/-- The wildcard watcher state the switching logic reads and writes:
the currently tailed file and the pause flag. -/
structure WildcardState where
  current_file : Option FileInfo
  paused : Bool
deriving Repr, DecidableEq

/-- The body of `WildcardFileWatcher._switch_to_file` past the
same-file guard: clean up and publish an interruption for a non-initial
switch away from an existing file, read the new file per mode and
publish its content, open it for tailing, and for a non-initial switch
publish the resumption and the `file_switched` signal. -/
def switchBody (st : WildcardState) (tail_only : Bool) (tail_lines : Nat)
    (old : Option FileInfo) (new_file : FileInfo) (is_initial : Bool) :
    WildcardState × List TailerAction :=
  let pre : List TailerAction :=
    match old with
    | some o =>
      if !is_initial then
        [.close_handle,
         .publish_interrupted ("Switching from ".data ++ baseName o.path
           ++ " to ".data ++ baseName new_file.path)]
      else []
    | none => []
  let content := modeRead tail_only tail_lines new_file.text
  let mid : List TailerAction :=
    (if content.isEmpty then []
     else
       [.publish_content content] ++
       (if !st.paused then [.emit_new_lines content] else [])) ++
    [.seek_end]
  let post : List TailerAction :=
    if is_initial then []
    else
      [.publish_resumed,
       .emit_file_switched (match old with | some o => o.path | none => [])
         new_file.path]
  ({ st with current_file := some new_file }, pre ++ mid ++ post)

/-- `WildcardFileWatcher._switch_to_file(new_file, is_initial)` on the
happy path where the new file is readable and openable. -/
def switchToFile (st : WildcardState) (tail_only : Bool) (tail_lines : Nat)
    (new_file : FileInfo) (is_initial : Bool) :
    WildcardState × List TailerAction :=
  match st.current_file with
  | some o =>
    if o.path = new_file.path then (st, [])
    else switchBody st tail_only tail_lines (some o) new_file is_initial
  | none => switchBody st tail_only tail_lines none new_file is_initial

/-- `WildcardFileWatcher._on_new_file_created(file_path)` when both
the new file and the current file can be statted: switch only when the
new file's mtime is strictly greater (or when there is no current
file). -/
def onNewFileCreated (st : WildcardState) (tail_only : Bool)
    (tail_lines : Nat) (new_file : FileInfo) :
    WildcardState × List TailerAction :=
  match st.current_file with
  | some cur =>
    if cur.mtime < new_file.mtime then
      switchToFile st tail_only tail_lines new_file false
    else (st, [])
  | none => switchToFile st tail_only tail_lines new_file false

/-- The startup selection in `WildcardFileWatcher.run`: pick the
latest match and load it with `is_initial=True` (silently); with no
match, do nothing and wait for creations. -/
def wildcardStart (matching : List FileInfo) (tail_only : Bool)
    (tail_lines : Nat) : WildcardState × List TailerAction :=
  let st0 : WildcardState := { current_file := none, paused := false }
  match findLatestMatchingFile matching with
  | some f => switchToFile st0 tail_only tail_lines f true
  | none => (st0, [])

/-- The process-wide registry `_DIRECTORY_OBSERVERS`: directory path →
(observer handle identity, reference count), every access guarded by
`_OBSERVER_LOCK`. -/
structure ObserverRegistry where
  entries : List (Str × Nat × Nat)
deriving Repr, DecidableEq

/-- The locked acquisition block of
`WildcardFileWatcher._watch_directory`: reuse the directory's observer
and bump its count when present, otherwise start a fresh observer
(identified here by `fresh_id`) with count 1.  Returns the registry,
the observer this watcher now uses, and whether a new OS watch was
created. -/
def acquireObserver (reg : ObserverRegistry) (dir : Str) (fresh_id : Nat) :
    ObserverRegistry × Nat × Bool :=
  match lookupA reg.entries dir with
  | some (obs, n) =>
    ({ entries := updateA reg.entries dir (obs, n + 1) }, obs, false)
  | none => ({ entries := reg.entries ++ [(dir, fresh_id, 1)] }, fresh_id, true)

/-- The locked release block of `WildcardFileWatcher._cleanup`: with
`ref_count <= 1` stop the observer and delete the entry, otherwise
decrement.  The Bool reports whether the OS watch was stopped and
removed. -/
def releaseObserver (reg : ObserverRegistry) (dir : Str) :
    ObserverRegistry × Bool :=
  match lookupA reg.entries dir with
  | some (obs, n) =>
    if n ≤ 1 then ({ entries := removeA reg.entries dir }, true)
    else ({ entries := updateA reg.entries dir (obs, n - 1) }, false)
  | none => (reg, false)

/-- C7: over any sequence of append/clear operations, a `LogBuffer`
that starts within its cap never holds more than `max_lines` lines
(the cap itself never changes); an append retains exactly the most
recent lines, evicting oldest first; and the receipt counter is
monotone — each append adds the number of lines appended and a clear
leaves it unchanged. -/
theorem logBuffer_bounded_eviction_monotone_counter
    (b : LogBuffer) (ops : List BufOp) (c : Str)
    (h : b.lines.length ≤ b.max_lines) :
    (applyBufOps b ops).max_lines = b.max_lines
    ∧ (applyBufOps b ops).lines.length ≤ b.max_lines
    ∧ ((applyBufOps b ops).append c).lines
        = takeLast b.max_lines ((applyBufOps b ops).lines ++ splitLinesKeepEnds c)
    ∧ ((applyBufOps b ops).append c).total_lines_received
        = (applyBufOps b ops).total_lines_received + (splitLinesKeepEnds c).length
    ∧ ((applyBufOps b ops).clear).total_lines_received
        = (applyBufOps b ops).total_lines_received
    ∧ b.total_lines_received ≤ (applyBufOps b ops).total_lines_received := by
  refine ⟨max_lines_applyBufOps b ops, size_le_applyBufOps b ops h, ?_, rfl, rfl,
    counter_le_applyBufOps b ops⟩
  unfold LogBuffer.append
  rw [max_lines_applyBufOps]

theorem logBuffer_bounded_eviction_monotone_counter_witness :
    (LogBuffer.init 10000).lines.length ≤ (LogBuffer.init 10000).max_lines
    ∧ ((applyBufOps (LogBuffer.init 10000)
          [.append "a\nb\n".data, .clear, .append "c\n".data]).max_lines = 10000
        ∧ (applyBufOps (LogBuffer.init 10000)
            [.append "a\nb\n".data, .clear, .append "c\n".data]).lines.length ≤ 10000
        ∧ ((applyBufOps (LogBuffer.init 10000)
            [.append "a\nb\n".data, .clear, .append "c\n".data]).append "d".data).lines
          = takeLast 10000 ((applyBufOps (LogBuffer.init 10000)
              [.append "a\nb\n".data, .clear, .append "c\n".data]).lines
              ++ splitLinesKeepEnds "d".data)
        ∧ ((applyBufOps (LogBuffer.init 10000)
            [.append "a\nb\n".data, .clear, .append "c\n".data]).append "d".data).total_lines_received
          = (applyBufOps (LogBuffer.init 10000)
              [.append "a\nb\n".data, .clear, .append "c\n".data]).total_lines_received
            + (splitLinesKeepEnds "d".data).length
        ∧ ((applyBufOps (LogBuffer.init 10000)
            [.append "a\nb\n".data, .clear, .append "c\n".data]).clear).total_lines_received
          = (applyBufOps (LogBuffer.init 10000)
              [.append "a\nb\n".data, .clear, .append "c\n".data]).total_lines_received
        ∧ (LogBuffer.init 10000).total_lines_received
          ≤ (applyBufOps (LogBuffer.init 10000)
              [.append "a\nb\n".data, .clear, .append "c\n".data]).total_lines_received) :=
  ⟨by decide,
   logBuffer_bounded_eviction_monotone_counter (LogBuffer.init 10000)
     [.append "a\nb\n".data, .clear, .append "c\n".data] "d".data (by decide)⟩

/-- C10: as long as the total number of split lines fits under the
cap, `get_content()` after a sequence of appends is the
character-for-character concatenation of the appended chunks, and
appending the empty string changes neither the lines, the content,
nor the counter. -/
theorem logBuffer_append_concat_lossless (m : Nat) (cs : List Str) (b : LogBuffer)
    (h : (cs.map fun c => (splitLinesKeepEnds c).length).sum ≤ m)
    (hb : b.lines.length ≤ b.max_lines) :
    (cs.foldl LogBuffer.append (LogBuffer.init m)).get_content = joinStr cs
    ∧ (b.append []).lines = b.lines
    ∧ (b.append []).get_content = b.get_content
    ∧ (b.append []).total_lines_received = b.total_lines_received := by
  have he : (b.append []).lines = b.lines := by
    show takeLast b.max_lines (b.lines ++ splitLinesKeepEnds []) = b.lines
    rw [show splitLinesKeepEnds [] = [] from rfl, List.append_nil]
    exact takeLast_eq_self hb
  refine ⟨?_, he, ?_, ?_⟩
  · have hf := foldl_append_lines cs (LogBuffer.init m)
      (by simpa [LogBuffer.init] using h)
    unfold LogBuffer.get_content
    rw [hf]
    simp [LogBuffer.init, joinStr_join_map_split]
  · unfold LogBuffer.get_content
    rw [he]
  · show b.total_lines_received + (splitLinesKeepEnds []).length
      = b.total_lines_received
    rfl

theorem logBuffer_append_concat_lossless_witness :
    (((["ab".data, "cd\n".data, "e\nf".data] : List Str).map
        fun c => (splitLinesKeepEnds c).length).sum ≤ 10
      ∧ ((LogBuffer.init 7).append "x\n".data).lines.length
          ≤ ((LogBuffer.init 7).append "x\n".data).max_lines)
    ∧ ((["ab".data, "cd\n".data, "e\nf".data].foldl LogBuffer.append
          (LogBuffer.init 10)).get_content
        = joinStr ["ab".data, "cd\n".data, "e\nf".data]
      ∧ (((LogBuffer.init 7).append "x\n".data).append []).lines
          = ((LogBuffer.init 7).append "x\n".data).lines
      ∧ (((LogBuffer.init 7).append "x\n".data).append []).get_content
          = ((LogBuffer.init 7).append "x\n".data).get_content
      ∧ (((LogBuffer.init 7).append "x\n".data).append []).total_lines_received
          = ((LogBuffer.init 7).append "x\n".data).total_lines_received) :=
  ⟨⟨by decide, by decide⟩,
   logBuffer_append_concat_lossless 10 ["ab".data, "cd\n".data, "e\nf".data]
     ((LogBuffer.init 7).append "x\n".data) (by decide) (by decide)⟩

theorem notifyContent_map_sub_id (subs : List Subscriber) (path content : Str) :
    (notifyContent subs path content).map (fun d => d.sub_id)
      = subs.map fun t => t.sub_id := by
  unfold notifyContent
  rw [List.map_map]
  refine List.map_congr_left fun s _ => ?_
  unfold Subscriber.attempt_on_content
  by_cases h : s.content_raises path content = true
  · simp [h]
  · simp [h]

theorem notifyContent_filter_fresh (subs : List Subscriber) (path content : Str)
    (sid : Nat) (hfresh : ∀ t ∈ subs, t.sub_id ≠ sid) :
    (notifyContent subs path content).filter (fun d => d.sub_id == sid) = [] := by
  rw [List.filter_eq_nil_iff]
  intro d hd
  unfold notifyContent at hd
  obtain ⟨t, ht, hdt⟩ := List.mem_map.mp hd
  have hid : d.sub_id = t.sub_id := by
    cases h : t.attempt_on_content path content <;> rw [h] at hdt <;>
      simp [← hdt]
  simp [hid, hfresh t ht]

/-- C3: subscribing to a key whose buffer holds `[l1, l2, l3]` and
then publishing `l4` delivers to the new subscriber exactly one
catch-up content call carrying the buffered `l1 ++ l2 ++ l3`, followed
by exactly one content call carrying `l4`, with no gap and no
duplicate. -/
theorem subscribe_catchup_then_live_delivery (m : LogManager) (path : Str)
    (l1 l2 l3 l4 : Str) (b : LogBuffer) (subs : List Subscriber) (s : Subscriber)
    (hb : lookupA m.buffers path = some b)
    (hlines : b.lines = [l1, l2, l3])
    (hs : lookupA m.subscribers path = some subs)
    (hfresh : ∀ t ∈ subs, t.sub_id ≠ s.sub_id)
    (hok : ∀ p c, s.content_raises p c = false) :
    (m.subscribe path s).2
      = [{ sub_id := s.sub_id
           call := .on_log_content path (l1 ++ l2 ++ l3)
           raised := false }]
    ∧ (((m.subscribe path s).1.on_content_available path l4).2.filter
          fun d => d.sub_id == s.sub_id)
      = [{ sub_id := s.sub_id, call := .on_log_content path l4, raised := false }] := by
  have hcontent : b.get_content = l1 ++ l2 ++ l3 := by
    unfold LogBuffer.get_content
    rw [hlines]
    simp [joinStr]
  have hsize : 0 < b.size := by
    unfold LogBuffer.size
    rw [hlines]
    simp
  have hany : (subs.any fun t => t.sub_id = s.sub_id) = false := by
    rw [List.any_eq_false]
    intro t ht
    simpa using hfresh t ht
  have hsub : m.subscribe path s
      = ({ m with subscribers := updateA m.subscribers path (subs ++ [s]) },
         [{ sub_id := s.sub_id
            call := .on_log_content path (l1 ++ l2 ++ l3)
            raised := false }]) := by
    unfold LogManager.subscribe
    simp [hs, hany, hb, hsize, hcontent, hok]
  refine ⟨by rw [hsub], ?_⟩
  rw [hsub]
  unfold LogManager.on_content_available
  have hs2 : lookupA (updateA m.subscribers path (subs ++ [s])) path
      = some (subs ++ [s]) :=
    lookupA_updateA _ _ _ (by rw [hs]; rfl)
  simp only [hs2, hb, Option.getD_some]
  unfold notifyContent
  rw [List.map_append, List.filter_append]
  rw [show (subs.map fun t =>
      match t.attempt_on_content path l4 with
      | .ok _ => ({ sub_id := t.sub_id, call := .on_log_content path l4,
                    raised := false } : Delivery)
      | .error _ => { sub_id := t.sub_id, call := .on_log_content path l4,
                      raised := true }) = notifyContent subs path l4 from rfl]
  rw [notifyContent_filter_fresh subs path l4 s.sub_id hfresh]
  simp [Subscriber.attempt_on_content, hok]

theorem subscribe_catchup_then_live_delivery_witness :
    (lookupA (LogManager.mk
        [(['k'], { max_lines := 10, lines := ["L1\n".data, "L2\n".data, "L3\n".data],
                   total_lines_received := 3 })]
        [(['k'], [])]).buffers ['k']
      = some { max_lines := 10, lines := ["L1\n".data, "L2\n".data, "L3\n".data],
               total_lines_received := 3 }
    ∧ ({ max_lines := 10, lines := ["L1\n".data, "L2\n".data, "L3\n".data],
         total_lines_received := 3 } : LogBuffer).lines
      = ["L1\n".data, "L2\n".data, "L3\n".data])
    ∧ ((LogManager.mk
        [(['k'], { max_lines := 10, lines := ["L1\n".data, "L2\n".data, "L3\n".data],
                   total_lines_received := 3 })]
        [(['k'], [])]).subscribe ['k']
          { sub_id := 7, content_raises := fun _ _ => false }).2
      = [{ sub_id := 7,
           call := .on_log_content ['k'] ("L1\n".data ++ "L2\n".data ++ "L3\n".data),
           raised := false }]
    ∧ ((((LogManager.mk
        [(['k'], { max_lines := 10, lines := ["L1\n".data, "L2\n".data, "L3\n".data],
                   total_lines_received := 3 })]
        [(['k'], [])]).subscribe ['k']
          { sub_id := 7, content_raises := fun _ _ => false }).1.on_content_available
            ['k'] "L4\n".data).2.filter fun d => d.sub_id == 7)
      = [{ sub_id := 7, call := .on_log_content ['k'] "L4\n".data, raised := false }] :=
  ⟨⟨rfl, rfl⟩,
   subscribe_catchup_then_live_delivery
     (LogManager.mk
        [(['k'], { max_lines := 10, lines := ["L1\n".data, "L2\n".data, "L3\n".data],
                   total_lines_received := 3 })]
        [(['k'], [])])
     ['k'] "L1\n".data "L2\n".data "L3\n".data "L4\n".data
     { max_lines := 10, lines := ["L1\n".data, "L2\n".data, "L3\n".data],
       total_lines_received := 3 }
     [] { sub_id := 7, content_raises := fun _ _ => false }
     rfl rfl rfl (by intro t ht; cases ht) (fun _ _ => rfl)⟩

/-- C9: when a chunk is published on a key, the chunk is appended to
the buffer before notification; every subscriber in the list receives
the notification attempt, in list order; and an exception raised by
one subscriber is caught inside the loop, so it neither stops the
publishing call nor prevents any other (non-raising) subscriber's
delivery. -/
theorem publish_isolates_subscriber_exceptions (m : LogManager)
    (path content : Str) (b : LogBuffer) (subs : List Subscriber)
    (hb : lookupA m.buffers path = some b)
    (hs : lookupA m.subscribers path = some subs) :
    lookupA (m.on_content_available path content).1.buffers path
      = some (b.append content)
    ∧ ((m.on_content_available path content).2.map fun d => d.sub_id)
        = (subs.map fun t => t.sub_id)
    ∧ (∀ d ∈ (m.on_content_available path content).2,
        d.call = .on_log_content path content)
    ∧ ∀ t ∈ subs, t.content_raises path content = false →
        ({ sub_id := t.sub_id, call := .on_log_content path content,
           raised := false } : Delivery)
          ∈ (m.on_content_available path content).2 := by
  have hrun : m.on_content_available path content
      = ({ m with buffers := updateA m.buffers path (b.append content) },
         notifyContent subs path content) := by
    unfold LogManager.on_content_available
    simp [hb, hs]
  refine ⟨?_, ?_, ?_, ?_⟩
  · rw [hrun]
    exact lookupA_updateA _ _ _ (by rw [hb]; rfl)
  · rw [hrun]
    exact notifyContent_map_sub_id subs path content
  · rw [hrun]
    intro d hd
    obtain ⟨t, _, hdt⟩ := List.mem_map.mp hd
    cases h : t.attempt_on_content path content <;> rw [h] at hdt <;>
      simp [← hdt]
  · rw [hrun]
    intro t ht hno
    have : (match t.attempt_on_content path content with
        | .ok _ => ({ sub_id := t.sub_id, call := .on_log_content path content,
                      raised := false } : Delivery)
        | .error _ => { sub_id := t.sub_id, call := .on_log_content path content,
                        raised := true })
        = { sub_id := t.sub_id, call := .on_log_content path content,
            raised := false } := by
      unfold Subscriber.attempt_on_content
      rw [hno]
      rfl
    exact this ▸ List.mem_map_of_mem _ ht

theorem publish_isolates_subscriber_exceptions_witness :
    (lookupA (LogManager.mk [(['k'], LogBuffer.init 10)]
        [(['k'], [{ sub_id := 1, content_raises := fun _ _ => true },
                  { sub_id := 2, content_raises := fun _ _ => false }])]).buffers ['k']
      = some (LogBuffer.init 10)
    ∧ lookupA (LogManager.mk [(['k'], LogBuffer.init 10)]
        [(['k'], [{ sub_id := 1, content_raises := fun _ _ => true },
                  { sub_id := 2, content_raises := fun _ _ => false }])]).subscribers ['k']
      = some [{ sub_id := 1, content_raises := fun _ _ => true },
              { sub_id := 2, content_raises := fun _ _ => false }])
    ∧ (lookupA ((LogManager.mk [(['k'], LogBuffer.init 10)]
          [(['k'], [{ sub_id := 1, content_raises := fun _ _ => true },
                    { sub_id := 2, content_raises := fun _ _ => false }])]).on_content_available
            ['k'] "x\n".data).1.buffers ['k']
        = some ((LogBuffer.init 10).append "x\n".data)
      ∧ (((LogManager.mk [(['k'], LogBuffer.init 10)]
          [(['k'], [{ sub_id := 1, content_raises := fun _ _ => true },
                    { sub_id := 2, content_raises := fun _ _ => false }])]).on_content_available
            ['k'] "x\n".data).2.map fun d => d.sub_id)
        = ([{ sub_id := 1, content_raises := fun _ _ => true },
           { sub_id := 2, content_raises := fun _ _ => false }] : List Subscriber).map
            (fun t => t.sub_id)
      ∧ (∀ d ∈ ((LogManager.mk [(['k'], LogBuffer.init 10)]
          [(['k'], [{ sub_id := 1, content_raises := fun _ _ => true },
                    { sub_id := 2, content_raises := fun _ _ => false }])]).on_content_available
            ['k'] "x\n".data).2, d.call = .on_log_content ['k'] "x\n".data)
      ∧ ∀ t ∈ ([{ sub_id := 1, content_raises := fun _ _ => true },
               { sub_id := 2, content_raises := fun _ _ => false }] : List Subscriber),
          t.content_raises ['k'] "x\n".data = false →
          ({ sub_id := t.sub_id, call := .on_log_content ['k'] "x\n".data,
             raised := false } : Delivery)
            ∈ ((LogManager.mk [(['k'], LogBuffer.init 10)]
          [(['k'], [{ sub_id := 1, content_raises := fun _ _ => true },
                    { sub_id := 2, content_raises := fun _ _ => false }])]).on_content_available
            ['k'] "x\n".data).2) :=
  ⟨⟨rfl, rfl⟩,
   publish_isolates_subscriber_exceptions
     (LogManager.mk [(['k'], LogBuffer.init 10)]
        [(['k'], [{ sub_id := 1, content_raises := fun _ _ => true },
                  { sub_id := 2, content_raises := fun _ _ => false }])])
     ['k'] "x\n".data (LogBuffer.init 10)
     [{ sub_id := 1, content_raises := fun _ _ => true },
      { sub_id := 2, content_raises := fun _ _ => false }]
     rfl rfl⟩

/-- C1 (counterexample): the claim asserts that on a reconciliation
truncation the resumption event is published last, after the separator
and the re-read content.  In `_handle_truncation` the resumption is
published immediately after the seek, before the separator and before
any content, so at the concrete input (live handle, not paused, file
now reading "x") the last hub-published action is the content, not the
resumption. -/
theorem truncation_resumption_not_published_last :
    ¬ (hubTrace (handleTruncation true false (some ['x']))).getLast?
        = some TailerAction.publish_resumed := by decide

/-- C1 (amended): on a reconciliation-detected truncation with a live
handle, the tailer publishes the interruption (reason
`"File truncated/rotated"`), seeks the handle to offset 0, publishes
the resumption, publishes the human-visible separator, and then reads
forward from offset 0 and publishes that content; no content is
published before the seek to offset 0, so it never appends from the
stale offset. -/
theorem truncation_sequence_actual_order (content : Str) (hc : content ≠ []) :
    handleTruncation true false (some content)
      = [.publish_interrupted "File truncated/rotated".data,
         .seek_start,
         .publish_resumed,
         .publish_content separatorStr,
         .emit_new_lines separatorStr,
         .publish_content content,
         .emit_new_lines content]
    ∧ ∀ c, TailerAction.publish_content c ∉
        (handleTruncation true false (some content)).takeWhile
          (fun a => a != TailerAction.seek_start) := by
  have hne : content.isEmpty = false := by
    cases content with
    | nil => exact absurd rfl hc
    | cons a l => rfl
  have htr : handleTruncation true false (some content)
      = [.publish_interrupted "File truncated/rotated".data,
         .seek_start,
         .publish_resumed,
         .publish_content separatorStr,
         .emit_new_lines separatorStr,
         .publish_content content,
         .emit_new_lines content] := by
    unfold handleTruncation
    simp [hne]
  refine ⟨htr, fun c => ?_⟩
  rw [htr, List.takeWhile_cons, if_pos (by decide), List.takeWhile_cons,
    if_neg (by decide)]
  simp

theorem truncation_sequence_actual_order_witness :
    (['x'] : Str) ≠ []
    ∧ (handleTruncation true false (some ['x'])
        = [.publish_interrupted "File truncated/rotated".data,
           .seek_start,
           .publish_resumed,
           .publish_content separatorStr,
           .emit_new_lines separatorStr,
           .publish_content ['x'],
           .emit_new_lines ['x']]
      ∧ ∀ c, TailerAction.publish_content c ∉
          (handleTruncation true false (some ['x'])).takeWhile
            (fun a => a != TailerAction.seek_start)) :=
  ⟨by decide, truncation_sequence_actual_order ['x'] (by decide)⟩

/-- C2: on a replacement-triggered reload (happy path: new file
readable, handle reopened), the tailer publishes the interruption,
closes the handle, clears the hub buffer, publishes the new file's
mode-dependent content and the separator, and publishes the resumption
last; replaying the trace against the hub buffer from ANY prior
buffer state yields lines derived solely from the new file's content
(plus the separator), so no content published before the replacement
remains readable from the buffer. -/
theorem reload_repopulates_buffer_from_new_file_only
    (reason : Str) (tail_only : Bool) (K : Nat) (text : Str) (b : LogBuffer)
    (hcont : modeRead tail_only K text ≠ []) :
    reloadFile reason true false tail_only K (some text) true
      = [.publish_interrupted reason,
         .close_handle,
         .clear_buffer,
         .publish_content (modeRead tail_only K text),
         .emit_new_lines (modeRead tail_only K text),
         .seek_end,
         .publish_content separatorStr,
         .emit_new_lines separatorStr,
         .publish_resumed]
    ∧ (runTraceOnBuffer b
          (reloadFile reason true false tail_only K (some text) true)).lines
        = takeLast b.max_lines
            (splitLinesKeepEnds (modeRead tail_only K text)
              ++ splitLinesKeepEnds separatorStr) := by
  have hne : (modeRead tail_only K text).isEmpty = false := by
    cases h : modeRead tail_only K text with
    | nil => exact absurd h hcont
    | cons a l => rfl
  have htr : reloadFile reason true false tail_only K (some text) true
      = [.publish_interrupted reason,
         .close_handle,
         .clear_buffer,
         .publish_content (modeRead tail_only K text),
         .emit_new_lines (modeRead tail_only K text),
         .seek_end,
         .publish_content separatorStr,
         .emit_new_lines separatorStr,
         .publish_resumed] := by
    unfold reloadFile
    simp [hne]
  refine ⟨htr, ?_⟩
  rw [htr]
  show (((b.clear.append (modeRead tail_only K text)).append
      separatorStr)).lines = _
  show takeLast b.max_lines
      ((b.clear.append (modeRead tail_only K text)).lines
        ++ splitLinesKeepEnds separatorStr) = _
  show takeLast b.max_lines
      (takeLast b.max_lines
          (b.clear.lines ++ splitLinesKeepEnds (modeRead tail_only K text))
        ++ splitLinesKeepEnds separatorStr) = _
  show takeLast b.max_lines
      (takeLast b.max_lines
          ([] ++ splitLinesKeepEnds (modeRead tail_only K text))
        ++ splitLinesKeepEnds separatorStr) = _
  rw [List.nil_append, takeLast_takeLast_append]

theorem reload_repopulates_buffer_from_new_file_only_witness :
    modeRead false 200 "NEW\n".data ≠ []
    ∧ (reloadFile "File replaced".data true false false 200 (some "NEW\n".data) true
        = [.publish_interrupted "File replaced".data,
           .close_handle,
           .clear_buffer,
           .publish_content (modeRead false 200 "NEW\n".data),
           .emit_new_lines (modeRead false 200 "NEW\n".data),
           .seek_end,
           .publish_content separatorStr,
           .emit_new_lines separatorStr,
           .publish_resumed]
      ∧ (runTraceOnBuffer ((LogBuffer.init 50).append "OLD-CONTENT\n".data)
            (reloadFile "File replaced".data true false false 200
              (some "NEW\n".data) true)).lines
          = takeLast ((LogBuffer.init 50).append "OLD-CONTENT\n".data).max_lines
              (splitLinesKeepEnds (modeRead false 200 "NEW\n".data)
                ++ splitLinesKeepEnds separatorStr)) :=
  ⟨by decide,
   reload_repopulates_buffer_from_new_file_only "File replaced".data false 200
     "NEW\n".data ((LogBuffer.init 50).append "OLD-CONTENT\n".data) (by decide)⟩

/-- C4 (counterexample): with `onContent` read as the hub subscriber
callback `on_log_content`, the claim fails on the code:
`_on_file_modified` calls `publish_content` unconditionally — also
while paused — so each of the three chunks is delivered to hub
subscribers during the pause, and `resume()` publishes nothing to the
hub, so no onContent delivery carrying the concatenation is made on
resume.  This is the negation of the claim's two assertions at the
concrete chunks `"a\n"`, `"b\n"`, `"c\n"`. -/
theorem pause_chunks_still_reach_hub :
    ¬ ((((onFileModified (pauseW ⟨true, false, []⟩) true ["a\n".data]).2.countP
          isContentPublish = 0)
        ∧ ((onFileModified
            ((onFileModified (pauseW ⟨true, false, []⟩) true ["a\n".data]).1)
            true ["b\n".data]).2.countP isContentPublish = 0)
        ∧ ((onFileModified
            ((onFileModified
              ((onFileModified (pauseW ⟨true, false, []⟩) true ["a\n".data]).1)
              true ["b\n".data]).1)
            true ["c\n".data]).2.countP isContentPublish = 0))
      ∧ ((resumeW ((onFileModified
            ((onFileModified
              ((onFileModified (pauseW ⟨true, false, []⟩) true ["a\n".data]).1)
              true ["b\n".data]).1)
            true ["c\n".data]).1)).2.filter isContentPublish
          = [.publish_content ("a\n".data ++ "b\n".data ++ "c\n".data)])) := by
  decide

/-- C4 (amended): pausing, reading three appended chunks (`ℓᵢ` is what
`readlines()` returns for chunk `i`, so chunk `i` is `joinStr ℓᵢ`),
then resuming: while paused the `new_lines` signal — the tailer's own
downstream emission channel — stays silent, but each chunk is still
published to the hub immediately upon being read (subscribers receive
one onContent call per chunk, in order, even while paused, so nothing
read from disk is lost); all three chunks are retained in order in
the pending buffer, and the resume performs exactly one `new_lines`
emission carrying the concatenation of the three chunks in original
order while publishing nothing further to the hub. -/
theorem pause_buffers_and_resume_flushes_once
    (ℓ1 ℓ2 ℓ3 : List Str) (h1 : ℓ1 ≠ []) (h2 : ℓ2 ≠ []) (h3 : ℓ3 ≠ []) :
    (((onFileModified
        ((onFileModified
          ((onFileModified (pauseW ⟨true, false, []⟩) true ℓ1).1) true ℓ2).1)
        true ℓ3).2).countP TailerAction.is_emit = 0
      ∧ ((onFileModified (pauseW ⟨true, false, []⟩) true ℓ1).2).countP
          TailerAction.is_emit = 0
      ∧ ((onFileModified
          ((onFileModified (pauseW ⟨true, false, []⟩) true ℓ1).1) true ℓ2).2).countP
          TailerAction.is_emit = 0)
    ∧ (((onFileModified (pauseW ⟨true, false, []⟩) true ℓ1).2).filter
          isContentPublish = [.publish_content (joinStr ℓ1)]
      ∧ ((onFileModified
          ((onFileModified (pauseW ⟨true, false, []⟩) true ℓ1).1) true ℓ2).2).filter
            isContentPublish = [.publish_content (joinStr ℓ2)]
      ∧ ((onFileModified
          ((onFileModified
            ((onFileModified (pauseW ⟨true, false, []⟩) true ℓ1).1) true ℓ2).1)
          true ℓ3).2).filter isContentPublish = [.publish_content (joinStr ℓ3)])
    ∧ ((onFileModified
        ((onFileModified
          ((onFileModified (pauseW ⟨true, false, []⟩) true ℓ1).1) true ℓ2).1)
        true ℓ3).1).pending = ℓ1 ++ ℓ2 ++ ℓ3
    ∧ (resumeW ((onFileModified
        ((onFileModified
          ((onFileModified (pauseW ⟨true, false, []⟩) true ℓ1).1) true ℓ2).1)
        true ℓ3).1)).2
      = [.emit_new_lines (joinStr ℓ1 ++ joinStr ℓ2 ++ joinStr ℓ3)]
    ∧ ((resumeW ((onFileModified
        ((onFileModified
          ((onFileModified (pauseW ⟨true, false, []⟩) true ℓ1).1) true ℓ2).1)
        true ℓ3).1)).2).countP isContentPublish = 0
    ∧ (resumeW ((onFileModified
        ((onFileModified
          ((onFileModified (pauseW ⟨true, false, []⟩) true ℓ1).1) true ℓ2).1)
        true ℓ3).1)).1.paused = false := by
  have e1 : ℓ1.isEmpty = false := by cases ℓ1 with
    | nil => exact absurd rfl h1
    | cons a l => rfl
  have e2 : ℓ2.isEmpty = false := by cases ℓ2 with
    | nil => exact absurd rfl h2
    | cons a l => rfl
  have e3 : ℓ3.isEmpty = false := by cases ℓ3 with
    | nil => exact absurd rfl h3
    | cons a l => rfl
  have r1 : onFileModified (pauseW ⟨true, false, []⟩) true ℓ1
      = (⟨true, true, ℓ1⟩,
         [.publish_content (joinStr ℓ1), .buffer_lines ℓ1]) := by
    unfold onFileModified pauseW
    simp [e1]
  have r2 : onFileModified (⟨true, true, ℓ1⟩ : WatcherState) true ℓ2
      = (⟨true, true, ℓ1 ++ ℓ2⟩,
         [.publish_content (joinStr ℓ2), .buffer_lines ℓ2]) := by
    unfold onFileModified
    simp [e2]
  have r3 : onFileModified (⟨true, true, ℓ1 ++ ℓ2⟩ : WatcherState) true ℓ3
      = (⟨true, true, ℓ1 ++ ℓ2 ++ ℓ3⟩,
         [.publish_content (joinStr ℓ3), .buffer_lines ℓ3]) := by
    unfold onFileModified
    simp [e3, List.append_assoc]
  have hp : (ℓ1 ++ ℓ2 ++ ℓ3).isEmpty = false := by
    cases hq : ℓ1 ++ ℓ2 ++ ℓ3 with
    | nil =>
      rcases List.append_eq_nil.mp hq with ⟨hq1, -⟩
      rcases List.append_eq_nil.mp hq1 with ⟨hq2, -⟩
      exact absurd hq2 h1
    | cons a l => rfl
  rw [r1]
  simp only [r2, r3]
  refine ⟨⟨?_, ?_, ?_⟩, ⟨?_, ?_, ?_⟩, ?_, ?_, ?_, ?_⟩
  case _ => trivial
  case _ => trivial
  case _ => trivial
  case _ => trivial
  case _ => trivial
  case _ => trivial
  case _ => trivial
  · unfold resumeW
    simp [h1, joinStr_append, List.append_assoc]
  · unfold resumeW
    simp [h1, List.countP_cons, isContentPublish]
  · unfold resumeW
    simp [h1]

theorem pause_buffers_and_resume_flushes_once_witness :
    ((["a\n".data] : List Str) ≠ [] ∧ (["b\n".data] : List Str) ≠ []
      ∧ (["c1\n".data, "c2\n".data] : List Str) ≠ [])
    ∧ ((((onFileModified
        ((onFileModified
          ((onFileModified (pauseW ⟨true, false, []⟩) true ["a\n".data]).1)
          true ["b\n".data]).1)
        true ["c1\n".data, "c2\n".data]).2).countP TailerAction.is_emit = 0
      ∧ ((onFileModified (pauseW ⟨true, false, []⟩) true ["a\n".data]).2).countP
          TailerAction.is_emit = 0
      ∧ ((onFileModified
          ((onFileModified (pauseW ⟨true, false, []⟩) true ["a\n".data]).1)
          true ["b\n".data]).2).countP TailerAction.is_emit = 0)
    ∧ (((onFileModified (pauseW ⟨true, false, []⟩) true ["a\n".data]).2).filter
          isContentPublish = [.publish_content (joinStr ["a\n".data])]
      ∧ ((onFileModified
          ((onFileModified (pauseW ⟨true, false, []⟩) true ["a\n".data]).1)
          true ["b\n".data]).2).filter isContentPublish
        = [.publish_content (joinStr ["b\n".data])]
      ∧ ((onFileModified
          ((onFileModified
            ((onFileModified (pauseW ⟨true, false, []⟩) true ["a\n".data]).1)
            true ["b\n".data]).1)
          true ["c1\n".data, "c2\n".data]).2).filter isContentPublish
        = [.publish_content (joinStr ["c1\n".data, "c2\n".data])])
    ∧ ((onFileModified
        ((onFileModified
          ((onFileModified (pauseW ⟨true, false, []⟩) true ["a\n".data]).1)
          true ["b\n".data]).1)
        true ["c1\n".data, "c2\n".data]).1).pending
      = ["a\n".data] ++ ["b\n".data] ++ ["c1\n".data, "c2\n".data]
    ∧ (resumeW ((onFileModified
        ((onFileModified
          ((onFileModified (pauseW ⟨true, false, []⟩) true ["a\n".data]).1)
          true ["b\n".data]).1)
        true ["c1\n".data, "c2\n".data]).1)).2
      = [.emit_new_lines (joinStr ["a\n".data] ++ joinStr ["b\n".data]
          ++ joinStr ["c1\n".data, "c2\n".data])]
    ∧ ((resumeW ((onFileModified
        ((onFileModified
          ((onFileModified (pauseW ⟨true, false, []⟩) true ["a\n".data]).1)
          true ["b\n".data]).1)
        true ["c1\n".data, "c2\n".data]).1)).2).countP isContentPublish = 0
    ∧ (resumeW ((onFileModified
        ((onFileModified
          ((onFileModified (pauseW ⟨true, false, []⟩) true ["a\n".data]).1)
          true ["b\n".data]).1)
        true ["c1\n".data, "c2\n".data]).1)).1.paused = false) :=
  ⟨⟨by decide, by decide, by decide⟩,
   pause_buffers_and_resume_flushes_once ["a\n".data] ["b\n".data]
     ["c1\n".data, "c2\n".data] (by decide) (by decide) (by decide)⟩

theorem pySliceLast_eq_takeLast_min (K : Nat) (l : List Str) (hK : 0 < K) :
    pySliceLast K l = takeLast (min K l.length) l := by
  unfold pySliceLast
  by_cases h : K < l.length
  · rw [if_pos h, if_neg (Nat.pos_iff_ne_zero.mp hK),
      Nat.min_eq_left (Nat.le_of_lt h)]
  · rw [if_neg h, Nat.min_eq_right (by omega)]
    exact (takeLast_eq_self (Nat.le_refl _)).symm

theorem mem_readLinesAux_ne_nil (s : Str) :
    ∀ acc x, x ∈ readLinesAux acc s → x ≠ [] := by
  induction s with
  | nil =>
    intro acc x hx
    unfold readLinesAux at hx
    by_cases h : acc.isEmpty
    · rw [if_pos h] at hx
      cases hx
    · rw [if_neg h] at hx
      rw [List.mem_singleton] at hx
      subst hx
      simp only [ne_eq, List.reverse_eq_nil_iff]
      intro he
      exact h (by simp [he])
  | cons c rest ih =>
    intro acc x hx
    unfold readLinesAux at hx
    by_cases h : c = '\n'
    · rw [if_pos h] at hx
      rcases List.mem_cons.mp hx with he | hm
      · subst he
        simp
      · exact ih [] x hm
    · rw [if_neg h] at hx
      exact ih (c :: acc) x hx

theorem readLinesOf_ne_nil {s : Str} (h : s ≠ []) : readLinesOf s ≠ [] := by
  intro he
  exact h (by simpa [he] using (joinStr_readLinesOf s).symm)

theorem joinStr_takeLast_ne_nil (n : Nat) (l : List Str)
    (hel : ∀ x ∈ l, x ≠ []) (hl : l ≠ []) (hn : 0 < n) :
    joinStr (takeLast n l) ≠ [] := by
  have hlen : 0 < (takeLast n l).length := by
    simp only [takeLast, List.length_drop]
    have : 0 < l.length := List.length_pos.mpr hl
    omega
  cases htl : takeLast n l with
  | nil => rw [htl] at hlen; cases hlen
  | cons x rest =>
    have hx : x ∈ l := by
      have : x ∈ takeLast n l := htl ▸ List.mem_cons_self x rest
      exact List.mem_of_mem_drop this
    rw [joinStr_cons]
    simp only [ne_eq, List.append_eq_nil, not_and]
    intro hxe
    exact absurd hxe (hel x hx)

/-- C8: started on an existing non-empty file, the tail-only initial
read publishes exactly the last `min K M` of the file's `M` lines
(then seeks the live handle to end of file), and the full-history read
publishes the entire file text.  `K ≥ 1`, as enforced by the provider
capabilities (`tail_line_limit must be at least 1`). -/
theorem tailing_initial_content_modes (K : Nat) (text : Str)
    (hK : 0 < K) (ht : text ≠ []) :
    modeRead true K text
      = joinStr (takeLast (min K (readLinesOf text).length) (readLinesOf text))
    ∧ modeRead false K text = text
    ∧ startTailing true K false text
      = [.publish_content
           (joinStr (takeLast (min K (readLinesOf text).length) (readLinesOf text))),
         .emit_new_lines
           (joinStr (takeLast (min K (readLinesOf text).length) (readLinesOf text))),
         .seek_end]
    ∧ startTailing false K false text
      = [.publish_content text, .emit_new_lines text, .seek_end] := by
  have hmode : modeRead true K text
      = joinStr (takeLast (min K (readLinesOf text).length) (readLinesOf text)) := by
    unfold modeRead
    rw [if_pos rfl, pySliceLast_eq_takeLast_min K _ hK]
  have hne : modeRead true K text ≠ [] := by
    rw [hmode]
    exact joinStr_takeLast_ne_nil _ _ (fun x hx => mem_readLinesAux_ne_nil text [] x hx)
      (readLinesOf_ne_nil ht)
      (by have : 0 < (readLinesOf text).length :=
            List.length_pos.mpr (readLinesOf_ne_nil ht)
          omega)
  have hbe : (modeRead true K text).isEmpty = false := by
    cases h : modeRead true K text with
    | nil => exact absurd h hne
    | cons a l => rfl
  have hfe : (modeRead false K text).isEmpty = false := by
    show text.isEmpty = false
    cases h : text with
    | nil => exact absurd h ht
    | cons a l => rfl
  refine ⟨hmode, rfl, ?_, ?_⟩
  · unfold startTailing
    rw [hmode] at hbe
    simp [hmode, hbe]
  · unfold startTailing
    simp only [modeRead, if_neg (by simp : ¬false = true)] at hfe ⊢
    simp [hfe]

theorem tailing_initial_content_modes_witness :
    (0 < 2 ∧ ("l1\nl2\nl3\nl4\nl5\n".data : Str) ≠ [])
    ∧ (modeRead true 2 "l1\nl2\nl3\nl4\nl5\n".data
        = joinStr (takeLast (min 2 (readLinesOf "l1\nl2\nl3\nl4\nl5\n".data).length)
            (readLinesOf "l1\nl2\nl3\nl4\nl5\n".data))
      ∧ modeRead false 2 "l1\nl2\nl3\nl4\nl5\n".data = "l1\nl2\nl3\nl4\nl5\n".data
      ∧ startTailing true 2 false "l1\nl2\nl3\nl4\nl5\n".data
        = [.publish_content
             (joinStr (takeLast (min 2 (readLinesOf "l1\nl2\nl3\nl4\nl5\n".data).length)
               (readLinesOf "l1\nl2\nl3\nl4\nl5\n".data))),
           .emit_new_lines
             (joinStr (takeLast (min 2 (readLinesOf "l1\nl2\nl3\nl4\nl5\n".data).length)
               (readLinesOf "l1\nl2\nl3\nl4\nl5\n".data))),
           .seek_end]
      ∧ startTailing false 2 false "l1\nl2\nl3\nl4\nl5\n".data
        = [.publish_content "l1\nl2\nl3\nl4\nl5\n".data,
           .emit_new_lines "l1\nl2\nl3\nl4\nl5\n".data, .seek_end])
    ∧ modeRead true 2 "l1\nl2\nl3\nl4\nl5\n".data = "l4\nl5\n".data :=
  ⟨⟨by decide, by decide⟩,
   tailing_initial_content_modes 2 "l1\nl2\nl3\nl4\nl5\n".data (by decide) (by decide),
   by decide⟩

theorem switchBody_initial_counts (st : WildcardState) (tail_only : Bool)
    (K : Nat) (old : Option FileInfo) (f : FileInfo) :
    ((switchBody st tail_only K old f true).2).countP isInterruptedEvent = 0
    ∧ ((switchBody st tail_only K old f true).2).countP isResumedEvent = 0
    ∧ ((switchBody st tail_only K old f true).2).countP isSwitchedEvent = 0 := by
  unfold switchBody
  cases old <;>
    by_cases h : (modeRead tail_only K f.text).isEmpty <;>
      by_cases hp : st.paused <;>
        simp [h, hp, List.countP_cons, List.countP_append,
          isInterruptedEvent, isResumedEvent, isSwitchedEvent]

theorem switchBody_noninitial_counts (st : WildcardState) (tail_only : Bool)
    (K : Nat) (o : FileInfo) (f : FileInfo) :
    ((switchBody st tail_only K (some o) f false).2).countP isInterruptedEvent = 1
    ∧ ((switchBody st tail_only K (some o) f false).2).countP isResumedEvent = 1
    ∧ ((switchBody st tail_only K (some o) f false).2).countP isSwitchedEvent = 1 := by
  unfold switchBody
  by_cases h : (modeRead tail_only K f.text).isEmpty <;>
    by_cases hp : st.paused <;>
      simp [h, hp, List.countP_cons, List.countP_append,
        isInterruptedEvent, isResumedEvent, isSwitchedEvent]

/-- C5: started over matching files `A` (older mtime) and `B` (newer
mtime), the pattern tailer selects `B` as the initial file and its
startup trace publishes no interruption, no resumption and no
file-switched signal; a creation event for a matching file `C` with
mtime strictly greater than `B`'s produces exactly one interruption,
one resumption and one file-switched signal and makes `C` current; a
creation event for a file `D` not newer than `B` produces no actions
and no state change. -/
theorem wildcard_initial_selection_and_switch (A B C D : FileInfo)
    (tail_only : Bool) (K : Nat)
    (hAB : A.mtime < B.mtime) (hBC : B.mtime < C.mtime)
    (hBCpath : B.path ≠ C.path) (hD : D.mtime ≤ B.mtime) :
    (wildcardStart [A, B] tail_only K).1.current_file = some B
    ∧ (((wildcardStart [A, B] tail_only K).2).countP isInterruptedEvent = 0
      ∧ ((wildcardStart [A, B] tail_only K).2).countP isResumedEvent = 0
      ∧ ((wildcardStart [A, B] tail_only K).2).countP isSwitchedEvent = 0)
    ∧ (onNewFileCreated (wildcardStart [A, B] tail_only K).1 tail_only K C).1.current_file
        = some C
    ∧ (((onNewFileCreated (wildcardStart [A, B] tail_only K).1 tail_only K C).2).countP
          isInterruptedEvent = 1
      ∧ ((onNewFileCreated (wildcardStart [A, B] tail_only K).1 tail_only K C).2).countP
          isResumedEvent = 1
      ∧ ((onNewFileCreated (wildcardStart [A, B] tail_only K).1 tail_only K C).2).countP
          isSwitchedEvent = 1)
    ∧ onNewFileCreated (wildcardStart [A, B] tail_only K).1 tail_only K D
        = ((wildcardStart [A, B] tail_only K).1, []) := by
  have hfind : findLatestMatchingFile [A, B] = some B := by
    unfold findLatestMatchingFile
    simp [hAB]
  have hstart : wildcardStart [A, B] tail_only K
      = switchBody ⟨none, false⟩ tail_only K none B true := by
    unfold wildcardStart
    rw [hfind]
    rfl
  have hst1 : (wildcardStart [A, B] tail_only K).1
      = ⟨some B, false⟩ := by
    rw [hstart]
    unfold switchBody
    rfl
  refine ⟨by rw [hst1], ?_, ?_, ?_, ?_⟩
  · rw [hstart]
    exact switchBody_initial_counts _ _ _ _ _
  · rw [hst1]
    unfold onNewFileCreated switchToFile
    simp only [if_pos hBC, if_neg hBCpath]
    unfold switchBody
    rfl
  · rw [hst1]
    unfold onNewFileCreated switchToFile
    simp only [if_pos hBC, if_neg hBCpath]
    exact switchBody_noninitial_counts ⟨some B, false⟩ tail_only K B C
  · rw [hst1]
    unfold onNewFileCreated
    simp [Nat.not_lt.mpr hD]

theorem wildcard_initial_selection_and_switch_witness :
    (FileInfo.mk "a.log".data 10 "A\n".data).mtime
        < (FileInfo.mk "b.log".data 20 "B\n".data).mtime
    ∧ ((wildcardStart
          [FileInfo.mk "a.log".data 10 "A\n".data,
           FileInfo.mk "b.log".data 20 "B\n".data] false 200).1.current_file
        = some (FileInfo.mk "b.log".data 20 "B\n".data)
      ∧ (((wildcardStart
          [FileInfo.mk "a.log".data 10 "A\n".data,
           FileInfo.mk "b.log".data 20 "B\n".data] false 200).2).countP
            isInterruptedEvent = 0
        ∧ ((wildcardStart
          [FileInfo.mk "a.log".data 10 "A\n".data,
           FileInfo.mk "b.log".data 20 "B\n".data] false 200).2).countP
            isResumedEvent = 0
        ∧ ((wildcardStart
          [FileInfo.mk "a.log".data 10 "A\n".data,
           FileInfo.mk "b.log".data 20 "B\n".data] false 200).2).countP
            isSwitchedEvent = 0)
      ∧ (onNewFileCreated (wildcardStart
          [FileInfo.mk "a.log".data 10 "A\n".data,
           FileInfo.mk "b.log".data 20 "B\n".data] false 200).1 false 200
           (FileInfo.mk "c.log".data 30 "C\n".data)).1.current_file
          = some (FileInfo.mk "c.log".data 30 "C\n".data)
      ∧ ((onNewFileCreated (wildcardStart
          [FileInfo.mk "a.log".data 10 "A\n".data,
           FileInfo.mk "b.log".data 20 "B\n".data] false 200).1 false 200
           (FileInfo.mk "c.log".data 30 "C\n".data)).2.countP isInterruptedEvent = 1
        ∧ (onNewFileCreated (wildcardStart
          [FileInfo.mk "a.log".data 10 "A\n".data,
           FileInfo.mk "b.log".data 20 "B\n".data] false 200).1 false 200
           (FileInfo.mk "c.log".data 30 "C\n".data)).2.countP isResumedEvent = 1
        ∧ (onNewFileCreated (wildcardStart
          [FileInfo.mk "a.log".data 10 "A\n".data,
           FileInfo.mk "b.log".data 20 "B\n".data] false 200).1 false 200
           (FileInfo.mk "c.log".data 30 "C\n".data)).2.countP isSwitchedEvent = 1)
      ∧ onNewFileCreated (wildcardStart
          [FileInfo.mk "a.log".data 10 "A\n".data,
           FileInfo.mk "b.log".data 20 "B\n".data] false 200).1 false 200
           (FileInfo.mk "d.log".data 15 "D\n".data)
          = ((wildcardStart
          [FileInfo.mk "a.log".data 10 "A\n".data,
           FileInfo.mk "b.log".data 20 "B\n".data] false 200).1, [])) :=
  ⟨by decide,
   wildcard_initial_selection_and_switch
     (FileInfo.mk "a.log".data 10 "A\n".data)
     (FileInfo.mk "b.log".data 20 "B\n".data)
     (FileInfo.mk "c.log".data 30 "C\n".data)
     (FileInfo.mk "d.log".data 15 "D\n".data)
     false 200 (by decide) (by decide) (by decide) (by decide)⟩

/-- C6: acquiring a directory watch creates a new OS observer only
when none is registered for that directory (entering with count 1) and
otherwise reuses the existing observer, incrementing its count by one;
releasing decrements by one and stops/removes the observer only when
the count reaches zero; in particular, from an empty registry, two
pattern tailers acquiring the same directory share one observer, the
first release keeps the watch alive at count 1, and the second release
stops and removes it. -/
theorem observer_registry_refcount (reg : ObserverRegistry) (dir : Str)
    (fresh_id o n : Nat)
    (hnodup : (reg.entries.map Prod.fst).Nodup) :
    (lookupA reg.entries dir = none →
      acquireObserver reg dir fresh_id
        = (⟨reg.entries ++ [(dir, fresh_id, 1)]⟩, fresh_id, true))
    ∧ (lookupA reg.entries dir = some (o, n) →
      acquireObserver reg dir fresh_id
          = (⟨updateA reg.entries dir (o, n + 1)⟩, o, false)
        ∧ lookupA (updateA reg.entries dir (o, n + 1)) dir = some (o, n + 1))
    ∧ (lookupA reg.entries dir = some (o, n) → 2 ≤ n →
      releaseObserver reg dir = (⟨updateA reg.entries dir (o, n - 1)⟩, false)
        ∧ lookupA (updateA reg.entries dir (o, n - 1)) dir = some (o, n - 1))
    ∧ (lookupA reg.entries dir = some (o, 1) →
      releaseObserver reg dir = (⟨removeA reg.entries dir⟩, true)
        ∧ lookupA (removeA reg.entries dir) dir = none)
    ∧ (let r1 := acquireObserver ⟨[]⟩ dir 1
       let r2 := acquireObserver r1.1 dir 2
       let s1 := releaseObserver r2.1 dir
       let s2 := releaseObserver s1.1 dir
       r2.2.1 = 1 ∧ r2.2.2 = false
       ∧ lookupA s1.1.entries dir = some (1, 1) ∧ s1.2 = false
       ∧ s2.1.entries = [] ∧ s2.2 = true) := by
  refine ⟨?_, ?_, ?_, ?_, ?_⟩
  · intro h
    unfold acquireObserver
    rw [h]
  · intro h
    refine ⟨?_, lookupA_updateA _ _ _ (by rw [h]; rfl)⟩
    unfold acquireObserver
    rw [h]
  · intro h hn
    refine ⟨?_, lookupA_updateA _ _ _ (by rw [h]; rfl)⟩
    unfold releaseObserver
    simp only [h]
    rw [if_neg (by omega : ¬ n ≤ 1)]
  · intro h
    refine ⟨?_, lookupA_removeA _ _ hnodup⟩
    unfold releaseObserver
    simp only [h]
    rw [if_pos (Nat.le_refl 1)]
  · unfold acquireObserver releaseObserver
    simp [lookupA, updateA, removeA]

theorem observer_registry_refcount_witness :
    ((ObserverRegistry.mk []).entries.map Prod.fst).Nodup
    ∧ ((lookupA (ObserverRegistry.mk []).entries "/logs".data = none →
        acquireObserver (ObserverRegistry.mk []) "/logs".data 9
          = (⟨(ObserverRegistry.mk []).entries ++ [("/logs".data, 9, 1)]⟩, 9, true))
      ∧ (lookupA (ObserverRegistry.mk []).entries "/logs".data = some (9, 1) →
        acquireObserver (ObserverRegistry.mk []) "/logs".data 9
            = (⟨updateA (ObserverRegistry.mk []).entries "/logs".data (9, 2)⟩, 9, false)
          ∧ lookupA (updateA (ObserverRegistry.mk []).entries "/logs".data (9, 2))
              "/logs".data = some (9, 2))
      ∧ (lookupA (ObserverRegistry.mk []).entries "/logs".data = some (9, 1) → 2 ≤ 1 →
        releaseObserver (ObserverRegistry.mk []) "/logs".data
            = (⟨updateA (ObserverRegistry.mk []).entries "/logs".data (9, 0)⟩, false)
          ∧ lookupA (updateA (ObserverRegistry.mk []).entries "/logs".data (9, 0))
              "/logs".data = some (9, 0))
      ∧ (lookupA (ObserverRegistry.mk []).entries "/logs".data = some (9, 1) →
        releaseObserver (ObserverRegistry.mk []) "/logs".data
            = (⟨removeA (ObserverRegistry.mk []).entries "/logs".data⟩, true)
          ∧ lookupA (removeA (ObserverRegistry.mk []).entries "/logs".data)
              "/logs".data = none)
      ∧ (let r1 := acquireObserver ⟨[]⟩ "/logs".data 1
         let r2 := acquireObserver r1.1 "/logs".data 2
         let s1 := releaseObserver r2.1 "/logs".data
         let s2 := releaseObserver s1.1 "/logs".data
         r2.2.1 = 1 ∧ r2.2.2 = false
         ∧ lookupA s1.1.entries "/logs".data = some (1, 1) ∧ s1.2 = false
         ∧ s2.1.entries = [] ∧ s2.2 = true)) :=
  ⟨by decide,
   observer_registry_refcount (ObserverRegistry.mk []) "/logs".data 9 9 1 (by decide)⟩

end Logarithmic
